import Mathlib

/-!
Verification development for the `ripbox` downloader (Python sources under
`src/ripbox/` plus the stand-alone `src/downloader.py`).

The Python code is shallowly embedded: each source function becomes a Lean
function over explicit data.  External effects (the filesystem, the yt-dlp
engine, the environment, user input) are parameters:

* the filesystem is a predicate `fs : String → Bool` (path existence);
* the yt-dlp engine invocation inside `run_download` is an `EngineBehavior`
  describing what `extract_info` did on that call, together with the state
  of the capture logger after the call;
* inside the CLI orchestrator, each call to `run_download` is abstracted as
  an oracle `exec : Nat → DownloadResult` indexed by a global call counter —
  the orchestrator only inspects the returned `ok`/`error` fields;
* the helper module `url_checks.py` is imported by `cli.py` but is not part
  of the sources; its three functions (`quick_url_check`,
  `is_networkish_error`, `is_permanent_unavailable_error`) are opaque
  parameters of the embedding (fields of `Env`), since the orchestrator
  only branches on their boolean results.

Python `dict` options bags are embedded as association lists with
Python-style update (replace in place if the key exists, append otherwise)
and `pop` (remove).  A `KeyError` (e.g. `opts["outtmpl"]` on a dict without
that key) is`Except.error`.
-/

/-- A yt-dlp post-processor entry, e.g.
`{"key": "FFmpegExtractAudio", "preferredcodec": "mp3", "preferredquality": "0"}`. -/
structure PP where
  key : String
  preferredcodec : String
  preferredquality : String
deriving DecidableEq, Repr

/-- The `extractor_args` nested dict: `{"youtube": {"player_client": [...],
("po_token": [token])?}}`. -/
structure ExtractorArgs where
  player_client : List String
  po_token : Option String
deriving DecidableEq, Repr

/-- Values stored in a yt-dlp options dict.  Each constructor corresponds to
one value shape actually used by the sources. -/
inductive OptVal where
  | str (s : String)
  | num (n : Nat)
  | flag (b : Bool)
  | strs (l : List String)
  | strMap (m : List (String × String))
  | ppList (l : List PP)
  | extractorArgs (e : ExtractorArgs)
  | jsRuntimes (nodePath : String)
deriving DecidableEq, Repr

/-- A Python options dict: association list from keys to values. -/
abbrev Dict : Type := List (String × OptVal)

/-- `k in d` for a Python dict. -/
def Dict.hasKey : Dict → String → Bool
  | [], _ => false
  | p :: rest, k => p.1 = k || Dict.hasKey rest k

/-- `d.get(k)` / `d[k]` lookup (a dict never holds duplicate keys). -/
def Dict.get? : Dict → String → Option OptVal
  | [], _ => none
  | p :: rest, k => if p.1 = k then some p.2 else Dict.get? rest k

/-- `d[k] = v`: replace the binding in place when the key exists, append the
new binding otherwise (Python dicts keep the original insertion position on
overwrite). -/
def Dict.set : Dict → String → OptVal → Dict
  | [], k, v => [(k, v)]
  | p :: rest, k, v => if p.1 = k then (k, v) :: rest else p :: Dict.set rest k v

/-- `d.pop(k, None)`: remove the binding for `k` when present. -/
def Dict.pop : Dict → String → Dict
  | [], _ => []
  | p :: rest, k => if p.1 = k then Dict.pop rest k else p :: Dict.pop rest k

/-- External-world parameters of the program, fixed for one batch run:
the resolved output directory string, whether `cookies.txt` exists next to
`ytdlp_opts.py` (and its path), the stripped `YTDLP_PO_TOKEN` environment
value, the result of `shutil.which("node")`, and the three functions of the
absent `url_checks.py` module (`is_permanent_unavailable_error`,
`is_networkish_error`, `quick_url_check`), which `cli.py` treats as opaque
boolean classifiers. -/
structure Env where
  out_dir : String
  cookieFileExists : Bool
  cookiePath : String
  poToken : String
  nodePath : Option String
  isPerm : Option String → Bool
  isNet : Option String → Bool
  check : String → Bool × String

/-- `ytdlp_opts.cookie_sources()`: the fixed ordered list of browser cookie
stores, each a 1-tuple. -/
def cookie_sources : List (List String) :=
  [["firefox"], ["chromium"], ["chrome"], ["brave"], ["edge"], ["opera"], ["vivaldi"]]

/-- `ytdlp_opts.build_base_opts(out_dir, enable_cookies)`. -/
def build_base_opts (env : Env) (enable_cookies : Bool) : Dict :=
  let extractor_args : ExtractorArgs :=
    { player_client := ["tv", "mweb", "tv_embedded"]
      po_token := if env.poToken = "" then none else some env.poToken }
  let opts : Dict :=
    [ ("format", .str "bv*+ba/b"),
      ("merge_output_format", .str "mp4"),
      ("outtmpl", .str (env.out_dir ++ "/%(title)s [%(id)s].%(ext)s")),
      ("ignoreerrors", .flag true),
      ("continuedl", .flag true),
      ("retries", .num 10),
      ("fragment_retries", .num 10),
      ("concurrent_fragment_downloads", .num 4),
      ("nopart", .flag false),
      ("noprogress", .flag false),
      ("http_headers", .strMap [("User-Agent", "Mozilla/5.0")]),
      ("restrictfilenames", .flag true),
      ("trim_file_name", .num 200),
      ("extractor_args", .extractorArgs extractor_args),
      ("remote_components", .strs ["ejs:github"]) ]
  let opts :=
    match env.nodePath with
    | some p => opts.set "js_runtimes" (.jsRuntimes p)
    | none => opts
  if enable_cookies then
    if env.cookieFileExists then opts.set "cookiefile" (.str env.cookiePath) else opts
  else opts

/-- `ytdlp_opts.build_opts_for_format(base_opts, export_ext)`.  The video
branches read `opts["outtmpl"]`, which raises `KeyError` when the key is
absent (or fails when the value is not a string); that is the `.error`
case. -/
def build_opts_for_format (base_opts : Dict) (export_ext : String) : Except String Dict :=
  let opts := base_opts
  if export_ext = "mp4" ∨ export_ext = "mkv" ∨ export_ext = "mov" then
    match opts.get? "outtmpl" with
    | some (.str t) =>
        .ok ((((opts.set "merge_output_format" (.str export_ext)).set
          "format" (.str "bv*+ba/b")).set
          "outtmpl" (.str (t.replace "%(ext)s" export_ext))).pop "postprocessors")
    | _ => .error "KeyError: outtmpl"
  else if export_ext = "mp3" then
    .ok (((opts.set "format" (.str "bestaudio/best")).pop
      "merge_output_format").set "postprocessors"
      (.ppList [⟨"FFmpegExtractAudio", "mp3", "0"⟩]))
  else
    match opts.get? "outtmpl" with
    | some (.str t) =>
        .ok ((((opts.set "merge_output_format" (.str "mp4")).set
          "format" (.str "bv*+ba/b")).set
          "outtmpl" (.str (t.replace "%(ext)s" "mp4"))).pop "postprocessors")
    | _ => .error "KeyError: outtmpl"

namespace legacy

/-- `downloader.build_opts_for_format` from the stand-alone
`src/downloader.py` script.  It differs from the `ripbox` version only in
that the mp3 branch also rewrites `outtmpl` (and can therefore also raise
`KeyError`). -/
def build_opts_for_format (base_opts : Dict) (export_ext : String) : Except String Dict :=
  let opts := base_opts
  if export_ext = "mp4" ∨ export_ext = "mkv" ∨ export_ext = "mov" then
    match opts.get? "outtmpl" with
    | some (.str t) =>
        .ok ((((opts.set "merge_output_format" (.str export_ext)).set
          "format" (.str "bv*+ba/b")).set
          "outtmpl" (.str (t.replace "%(ext)s" export_ext))).pop "postprocessors")
    | _ => .error "KeyError: outtmpl"
  else if export_ext = "mp3" then
    match opts.get? "outtmpl" with
    | some (.str t) =>
        .ok ((((opts.set "format" (.str "bestaudio/best")).pop
          "merge_output_format").set
          "outtmpl" (.str (t.replace "%(ext)s" "mp3"))).set "postprocessors"
          (.ppList [⟨"FFmpegExtractAudio", "mp3", "0"⟩]))
    | _ => .error "KeyError: outtmpl"
  else
    match opts.get? "outtmpl" with
    | some (.str t) =>
        .ok ((((opts.set "merge_output_format" (.str "mp4")).set
          "format" (.str "bv*+ba/b")).set
          "outtmpl" (.str (t.replace "%(ext)s" "mp4"))).pop "postprocessors")
    | _ => .error "KeyError: outtmpl"

end legacy

/-- `cookies.build_cookie_attempts(base_with_cookies)`: one candidate per
credential source.  A configured cookie file short-circuits; otherwise one
candidate per browser store, with `cookiesfrombrowser` set to the source
tuple and the mode string `"browser:" + src[0]`. -/
def build_cookie_attempts (base_with_cookies : Dict) : List (String × Dict) :=
  if base_with_cookies.hasKey "cookiefile" then
    [("cookiefile", base_with_cookies)]
  else
    cookie_sources.map (fun src =>
      ("browser:" ++ src.headD "", base_with_cookies.set "cookiesfrombrowser" (.strs src)))

/-!  `paths.py` — output-directory resolution.  The filesystem effect
(`out_dir.mkdir(parents=True, exist_ok=True)`) is recorded explicitly in
the result as the list of directories created, so that "raises without
creating anything" is visible in the model.  Paths are POSIX strings;
`Path(s).is_absolute()` is `s` starting with `/`; `Path.home()` is a
parameter. -/

/-- `PurePosixPath(s).is_absolute()`: the path string begins with `/`. -/
def isAbsolutePath (s : String) : Bool :=
  match s.data with
  | [] => false
  | c :: _ => c = '/'

/-- Result of `resolve_output_dir`: either the error message of the raised
`ValueError` or the returned directory, plus the `mkdir(parents=True)`
calls performed. -/
instance {α β : Type} [DecidableEq α] [DecidableEq β] : DecidableEq (Except α β) := fun x y =>
  match x, y with
  | .ok a, .ok b => if h : a = b then .isTrue (by rw [h]) else .isFalse (by simp [h])
  | .ok _, .error _ => .isFalse (by simp)
  | .error _, .ok _ => .isFalse (by simp)
  | .error a, .error b => if h : a = b then .isTrue (by rw [h]) else .isFalse (by simp [h])

structure ResolveOut where
  result : Except String String
  mkdirCalls : List String
deriving DecidableEq, Repr

/-- `paths.resolve_output_dir(user_input)` with `home = str(Path.home())`.
Empty input selects the base `~/Downloads`; an absolute path raises before
any directory is created; otherwise the subdirectory under the base is
created (with parents) and returned. -/
def resolve_output_dir (home : String) (user_input : String) : ResolveOut :=
  let base := home ++ "/Downloads"
  if user_input = "" then
    { result := .ok base, mkdirCalls := [base] }
  else if isAbsolutePath user_input then
    { result := .error "Absolute paths are not allowed. Use subfolders only.", mkdirCalls := [] }
  else
    let out_dir := base ++ "/" ++ user_input
    { result := .ok out_dir, mkdirCalls := [out_dir] }

/-!  `downloader.py` — the executor `run_download` and its output
verification.  The engine call `ydl.extract_info(url, download=True)` is
abstracted as an `EngineBehavior`; the capture logger's `last_error` field
after the call is a separate parameter (the engine reports errors through
the logger even when it does not raise). -/

/-- `downloader.DownloadResult`. -/
structure DownloadResult where
  ok : Bool
  error : Option String
deriving DecidableEq, Repr

/-- One entry of `info["requested_downloads"]` (when it is a dict):
its `filepath` and `filename` fields. -/
structure RequestedDownload where
  filepath : Option String
  filename : Option String
deriving DecidableEq, Repr

/-- One entry of `info["entries"]` (when it is a dict): its `_filename`
field and the result of `ydl.prepare_filename(e)` (`none` models the
`prepare_filename` call raising, in which case nothing is appended). -/
structure EngineEntry where
  filename : Option String
  prepared : Option String
deriving DecidableEq, Repr

/-- The info dict returned by a successful `extract_info` call, restricted
to the fields `_collect_candidate_outputs` probes.  `none` for
`requested_downloads`/`entries` models the field being absent or not a
list; a `none` list element models a non-dict item (skipped by the
`isinstance` guards). -/
structure EngineInfo where
  filename : Option String
  prepared : Option String
  requested_downloads : Option (List (Option RequestedDownload))
  entries : Option (List (Option EngineEntry))
deriving DecidableEq, Repr

/-- What the engine did during one `run_download` call: raised
`KeyboardInterrupt`, raised `DownloadError`/another exception with message
`str(e) = msg`, returned a non-dict, or returned an info dict. -/
inductive EngineBehavior where
  | interrupt
  | downloadError (msg : String)
  | otherError (msg : String)
  | returns (info : Option EngineInfo)
deriving DecidableEq, Repr

/-- Python `a or b` for an optional string `a` and string `b`: `b` when `a`
is `None` or empty. -/
def pyOr (a : Option String) (b : String) : String :=
  match a with
  | none => b
  | some s => if s = "" then b else s

/-- `downloader._existing_path(p)` with filesystem `fs`: `None` for a
falsy input, the (stringified) path when it exists, `None` otherwise. -/
def existing_path (fs : String → Bool) (p : Option String) : Option String :=
  match p with
  | none => none
  | some s => if s = "" then none else if fs s then some s else none

/-- The raw candidate list assembled by `_collect_candidate_outputs` before
the existence filter: `info["_filename"]`, `ydl.prepare_filename(info)`
(skipped when it raises), the `filepath`/`filename` of each dict entry of
`requested_downloads`, and for the first 5 dict entries of `entries` their
`_filename` and `prepare_filename` results. -/
def candidate_paths (info : EngineInfo) : List (Option String) :=
  ([info.filename] ++
    (match info.prepared with
     | some p => [some p]
     | none => [])) ++
  (match info.requested_downloads with
   | some rd =>
       rd.foldr (fun item acc =>
         match item with
         | some it => it.filepath :: it.filename :: acc
         | none => acc) []
   | none => []) ++
  (match info.entries with
   | some es =>
       (es.take 5).foldr (fun e acc =>
         match e with
         | some ee =>
             ee.filename ::
               (match ee.prepared with
                | some p => some p :: acc
                | none => acc)
         | none => acc) []
   | none => [])

/-- Order-preserving first-occurrence deduplication (the `seen` set in
`_collect_candidate_outputs`). -/
def dedupFirst : List String → List String
  | [] => []
  | x :: xs => x :: (dedupFirst (xs.filter (fun y => ¬ y = x)))
termination_by l => l.length
decreasing_by
  exact Nat.lt_succ_of_le (List.length_filter_le _ _)

/-- `downloader._collect_candidate_outputs(info, ydl)` over filesystem
`fs`: the deduplicated list of candidate paths that exist on disk. -/
def collect_candidate_outputs (fs : String → Bool) (info : EngineInfo) : List String :=
  dedupFirst ((candidate_paths info).filterMap (existing_path fs))

/-- `downloader.run_download(url, ydl_opts)` over filesystem `fs`, engine
behaviour `beh` and capture-logger state `last_error` after the call.
The `ydl_opts` argument only configures the engine, whose behaviour is
already summarized by `beh`. -/
def run_download (fs : String → Bool) (beh : EngineBehavior)
    (last_error : Option String) : DownloadResult :=
  match beh with
  | .interrupt => { ok := false, error := some "Cancelled by user" }
  | .downloadError msg => { ok := false, error := some (pyOr last_error msg) }
  | .otherError msg => { ok := false, error := some (pyOr last_error msg) }
  | .returns none =>
      { ok := false
        error := some (pyOr last_error "No info extracted (download did not complete).") }
  | .returns (some info) =>
      if (collect_candidate_outputs fs info).isEmpty then
        { ok := false
          error := some (pyOr last_error "No output file was created (treating as failure).") }
      else
        { ok := true, error := none }

/-!  `cli.py` — the batch orchestrator and the per-(URL, format) escalation
state machine (`main`, lines 93–204).  Each `run_download` call site is
abstracted by an oracle `exec : Nat → DownloadResult` indexed by a global
call counter, so that call order and call count are part of the model; the
options dict passed at each call is recorded in a `calls` trace.  A raised
`KeyboardInterrupt` (`raise` at the `"Cancelled by user"` checks) is the
`cancelled` outcome; the impossible-in-context `KeyError` from
`build_opts_for_format` is the `crashed` outcome. -/

/-- The locked credential: `(chosen_cookie_mode, chosen_cookie_base)`. -/
abbrev Lock : Type := String × Dict

/-- Result of the cookie-sweep loop (`cli.py` lines 157–174). -/
inductive SweepRes where
  | locked (mode : String) (cookie_base : Dict)
  | noSuccess (last_err : Option String)
  | cancelled
  | crashed (msg : String)
deriving DecidableEq, Repr

structure SweepOut where
  res : SweepRes
  calls : List Dict
  next : Nat
deriving DecidableEq, Repr

/-- The `for mode, cookie_base in attempts` sweep (`cli.py` 157–174):
per candidate build the per-format options, execute, abort on the
cancellation sentinel, lock on first success, stop on a permanent or
network classification, otherwise retain the error and continue. -/
def sweepLoop (env : Env) (exec : Nat → DownloadResult) (k : Nat)
    (export_ext : String) (attempts : List (String × Dict))
    (last_err : Option String) : SweepOut :=
  match attempts with
  | [] => { res := .noSuccess last_err, calls := [], next := k }
  | (mode, cookie_base) :: rest =>
    match build_opts_for_format cookie_base export_ext with
    | .error e => { res := .crashed e, calls := [], next := k }
    | .ok ydl_try =>
      let r2 := exec k
      if r2.error = some "Cancelled by user" then
        { res := .cancelled, calls := [ydl_try], next := k + 1 }
      else if r2.ok then
        { res := .locked mode cookie_base, calls := [ydl_try], next := k + 1 }
      else if env.isPerm r2.error || env.isNet r2.error then
        { res := .noSuccess r2.error, calls := [ydl_try], next := k + 1 }
      else
        let s := sweepLoop env exec (k + 1) export_ext rest r2.error
        { res := s.res, calls := ydl_try :: s.calls, next := s.next }

/-- Outcome of one (URL, export_format) pair. -/
inductive FmtRes where
  | success
  | failed (err : Option String)
  | cancelled
  | crashed (msg : String)
deriving DecidableEq, Repr

def FmtRes.isFailed : FmtRes → Bool
  | .failed _ => true
  | _ => false

structure FmtOut where
  res : FmtRes
  lock : Option Lock
  calls : List Dict
  next : Nat
deriving DecidableEq, Repr

/-- State 3 entry (`cli.py` 150–178): build the cookie-enabled base, ask
the registry for the candidates, run the sweep seeded with the
no-credentials error `r0.error`, and translate the sweep result: first
success locks `(mode, cookie_base)` and the format is done; no success is
a terminal failure with the sweep's last error. -/
def sweepPhase (env : Env) (exec : Nat → DownloadResult) (k : Nat)
    (lock : Option Lock) (export_ext : String) (r0err : Option String)
    (callsAcc : List Dict) : FmtOut :=
  let base_yes := build_base_opts env true
  let attempts := build_cookie_attempts base_yes
  let s := sweepLoop env exec k export_ext attempts r0err
  match s.res with
  | .locked mode cookie_base =>
      { res := .success, lock := some (mode, cookie_base)
        calls := callsAcc ++ s.calls, next := s.next }
  | .noSuccess e =>
      { res := .failed e, lock := lock, calls := callsAcc ++ s.calls, next := s.next }
  | .cancelled =>
      { res := .cancelled, lock := lock, calls := callsAcc ++ s.calls, next := s.next }
  | .crashed m =>
      { res := .crashed m, lock := lock, calls := callsAcc ++ s.calls, next := s.next }

/-- One (URL, export_format) pair (`cli.py` 104–178): state 1 without
credentials; on an Unknown failure state 2 with the locked credential when
one is set (a permanent/network failure there skips state 3); then the
cookie sweep. -/
def processFormat (env : Env) (exec : Nat → DownloadResult) (k : Nat)
    (lock : Option Lock) (export_ext : String) : FmtOut :=
  match build_opts_for_format (build_base_opts env false) export_ext with
  | .error e => { res := .crashed e, lock := lock, calls := [], next := k }
  | .ok ydl_no =>
    let r0 := exec k
    if r0.error = some "Cancelled by user" then
      { res := .cancelled, lock := lock, calls := [ydl_no], next := k + 1 }
    else if r0.ok then
      { res := .success, lock := lock, calls := [ydl_no], next := k + 1 }
    else if env.isPerm r0.error then
      { res := .failed r0.error, lock := lock, calls := [ydl_no], next := k + 1 }
    else if env.isNet r0.error then
      { res := .failed r0.error, lock := lock, calls := [ydl_no], next := k + 1 }
    else
      match lock with
      | none => sweepPhase env exec (k + 1) lock export_ext r0.error [ydl_no]
      | some (_, chosen_cookie_base) =>
        match build_opts_for_format chosen_cookie_base export_ext with
        | .error e => { res := .crashed e, lock := lock, calls := [ydl_no], next := k + 1 }
        | .ok ydl_locked =>
          let r1 := exec (k + 1)
          if r1.error = some "Cancelled by user" then
            { res := .cancelled, lock := lock, calls := [ydl_no, ydl_locked], next := k + 2 }
          else if r1.ok then
            { res := .success, lock := lock, calls := [ydl_no, ydl_locked], next := k + 2 }
          else if env.isPerm r1.error || env.isNet r1.error then
            { res := .failed r1.error, lock := lock, calls := [ydl_no, ydl_locked], next := k + 2 }
          else
            sweepPhase env exec (k + 2) lock export_ext r0.error [ydl_no, ydl_locked]

/-- Outcome of the per-URL format loop: completed with the `url_failed`
flag and the per-format results, or aborted. -/
inductive UrlRes where
  | completed (failed : Bool) (fmtResults : List FmtRes)
  | cancelled
  | crashed (msg : String)
deriving DecidableEq, Repr

structure UrlOut where
  res : UrlRes
  lock : Option Lock
  calls : List Dict
  next : Nat
deriving DecidableEq, Repr

/-- The `for export_ext in exports` loop (`cli.py` 104–178) with the
`url_failed` flag threaded through; a cancellation or crash aborts the
loop. -/
def formatsLoop (env : Env) (exec : Nat → DownloadResult) (k : Nat)
    (lock : Option Lock) (exports : List String) (url_failed : Bool)
    (acc : List FmtRes) : UrlOut :=
  match exports with
  | [] => { res := .completed url_failed acc.reverse, lock := lock, calls := [], next := k }
  | export_ext :: rest =>
    let f := processFormat env exec k lock export_ext
    match f.res with
    | .success =>
        let u := formatsLoop env exec f.next f.lock rest url_failed (.success :: acc)
        { res := u.res, lock := u.lock, calls := f.calls ++ u.calls, next := u.next }
    | .failed e =>
        let u := formatsLoop env exec f.next f.lock rest true (.failed e :: acc)
        { res := u.res, lock := u.lock, calls := f.calls ++ u.calls, next := u.next }
    | .cancelled => { res := .cancelled, lock := f.lock, calls := f.calls, next := f.next }
    | .crashed m => { res := .crashed m, lock := f.lock, calls := f.calls, next := f.next }

/-- How one batch iteration of `main` ended: the summary block (lines
185–200) runs only when the URL loop completes; a `KeyboardInterrupt`
reaches the top-level handler (lines 202–204) which prints a farewell and
returns without the summary; an unexpected exception propagates. -/
inductive BatchStatus where
  | completed
  | cancelled
  | crashed (msg : String)
deriving DecidableEq, Repr

structure BatchOut where
  ok_urls : List String
  fail_urls : List String
  invalid_urls : List (String × String)
  status : BatchStatus
  summaryEmitted : Bool
  lock : Option Lock
  calls : List Dict
  next : Nat
deriving DecidableEq, Repr

/-- The `for idx, url in enumerate(urls)` loop (`cli.py` 93–180) plus the
summary (185–200) and the `KeyboardInterrupt` handler (202–204): each URL
is fast-checked (invalid bucket on failure), otherwise its formats are
processed and the URL is appended to the failed bucket when any format
terminally failed, to the ok bucket otherwise. -/
def urlsLoop (env : Env) (exec : Nat → DownloadResult) (k : Nat)
    (lock : Option Lock) (urls : List String) (exports : List String)
    (okAcc failAcc : List String) (invAcc : List (String × String)) : BatchOut :=
  match urls with
  | [] =>
      { ok_urls := okAcc, fail_urls := failAcc, invalid_urls := invAcc
        status := .completed, summaryEmitted := true
        lock := lock, calls := [], next := k }
  | url :: rest =>
    let c := env.check url
    if ¬ c.1 then
      urlsLoop env exec k lock rest exports okAcc failAcc (invAcc ++ [(url, c.2)])
    else
      let u := formatsLoop env exec k lock exports false []
      match u.res with
      | .completed url_failed _ =>
          let b := urlsLoop env exec u.next u.lock rest exports
            (if url_failed then okAcc else okAcc ++ [url])
            (if url_failed then failAcc ++ [url] else failAcc) invAcc
          { b with calls := u.calls ++ b.calls }
      | .cancelled =>
          { ok_urls := okAcc, fail_urls := failAcc, invalid_urls := invAcc
            status := .cancelled, summaryEmitted := false
            lock := u.lock, calls := u.calls, next := u.next }
      | .crashed m =>
          { ok_urls := okAcc, fail_urls := failAcc, invalid_urls := invAcc
            status := .crashed m, summaryEmitted := false
            lock := u.lock, calls := u.calls, next := u.next }

/-- One batch run of `main` after the URLs, output dir and export formats
have been gathered: the session starts with no locked credential and the
call counter at 0. -/
def runBatch (env : Env) (exec : Nat → DownloadResult)
    (urls exports : List String) : BatchOut :=
  urlsLoop env exec 0 none urls exports [] [] []

/-!  Dictionary lemmas: how `set` and `pop` act on key membership and
lookup. -/

theorem Dict.hasKey_set_self (d : Dict) (k : String) (v : OptVal) :
    (d.set k v).hasKey k = true := by
  induction d with
  | nil => simp [Dict.set, Dict.hasKey]
  | cons p rest ih =>
      by_cases hp : p.1 = k
      · simp [Dict.set, Dict.hasKey, hp]
      · simp [Dict.set, Dict.hasKey, hp, ih]

theorem Dict.hasKey_set_ne (d : Dict) (k k' : String) (v : OptVal) (h : ¬ k' = k) :
    (d.set k v).hasKey k' = d.hasKey k' := by
  have hkk' : ¬ k = k' := fun hh => h hh.symm
  induction d with
  | nil => simp [Dict.set, Dict.hasKey, hkk']
  | cons p rest ih =>
      by_cases hp : p.1 = k
      · simp [Dict.set, Dict.hasKey, hp, hkk']
      · simp [Dict.set, Dict.hasKey, hp, ih]

theorem Dict.hasKey_pop_self (d : Dict) (k : String) :
    (d.pop k).hasKey k = false := by
  induction d with
  | nil => simp [Dict.pop, Dict.hasKey]
  | cons p rest ih =>
      by_cases hp : p.1 = k
      · simp [Dict.pop, hp, ih]
      · simp [Dict.pop, Dict.hasKey, hp, ih]

theorem Dict.hasKey_pop_ne (d : Dict) (k k' : String) (h : ¬ k' = k) :
    (d.pop k).hasKey k' = d.hasKey k' := by
  induction d with
  | nil => simp [Dict.pop]
  | cons p rest ih =>
      by_cases hp : p.1 = k
      · have hkk' : ¬ k = k' := fun hh => h hh.symm
        simp [Dict.pop, Dict.hasKey, hp, hkk', ih]
      · simp [Dict.pop, Dict.hasKey, hp, ih]

theorem Dict.get?_set_self (d : Dict) (k : String) (v : OptVal) :
    (d.set k v).get? k = some v := by
  induction d with
  | nil => simp [Dict.set, Dict.get?]
  | cons p rest ih =>
      by_cases hp : p.1 = k
      · simp [Dict.set, Dict.get?, hp]
      · simp [Dict.set, Dict.get?, hp, ih]

theorem Dict.get?_set_ne (d : Dict) (k k' : String) (v : OptVal) (h : ¬ k' = k) :
    (d.set k v).get? k' = d.get? k' := by
  have hkk' : ¬ k = k' := fun hh => h hh.symm
  induction d with
  | nil => simp [Dict.set, Dict.get?, hkk']
  | cons p rest ih =>
      by_cases hp : p.1 = k
      · simp [Dict.set, Dict.get?, hp, hkk']
      · simp [Dict.set, Dict.get?, hp, ih]

theorem Dict.get?_pop_ne (d : Dict) (k k' : String) (h : ¬ k' = k) :
    (d.pop k).get? k' = d.get? k' := by
  induction d with
  | nil => simp [Dict.pop]
  | cons p rest ih =>
      by_cases hp : p.1 = k
      · have hkk' : ¬ k = k' := fun hh => h hh.symm
        simp [Dict.pop, Dict.get?, hp, hkk', ih]
      · simp [Dict.pop, Dict.get?, hp, ih]

/-!  Branch characterizations of `build_opts_for_format`. -/

theorem build_opts_video (base : Dict) (ext t : String)
    (hv : ext = "mp4" ∨ ext = "mkv" ∨ ext = "mov")
    (hg : base.get? "outtmpl" = some (.str t)) :
    build_opts_for_format base ext =
      .ok ((((base.set "merge_output_format" (.str ext)).set
        "format" (.str "bv*+ba/b")).set
        "outtmpl" (.str (t.replace "%(ext)s" ext))).pop "postprocessors") := by
  simp only [build_opts_for_format, if_pos hv, hg]

theorem build_opts_mp3 (base : Dict) :
    build_opts_for_format base "mp3" =
      .ok (((base.set "format" (.str "bestaudio/best")).pop
        "merge_output_format").set "postprocessors"
        (.ppList [⟨"FFmpegExtractAudio", "mp3", "0"⟩])) := by
  simp only [build_opts_for_format]
  rw [if_neg (by decide : ¬ ("mp3" = "mp4" ∨ "mp3" = "mkv" ∨ "mp3" = "mov"))]
  simp

theorem build_opts_other (base : Dict) (ext t : String)
    (hv : ¬ (ext = "mp4" ∨ ext = "mkv" ∨ ext = "mov")) (hm : ¬ ext = "mp3")
    (hg : base.get? "outtmpl" = some (.str t)) :
    build_opts_for_format base ext =
      .ok ((((base.set "merge_output_format" (.str "mp4")).set
        "format" (.str "bv*+ba/b")).set
        "outtmpl" (.str (t.replace "%(ext)s" "mp4"))).pop "postprocessors") := by
  simp only [build_opts_for_format, if_neg hv, if_neg hm, hg]

/-- Key profile of the video/fallback result dict: the merge format key is
present, the postprocessors key absent. -/
theorem exclusive_video_shape (base : Dict) (v1 v2 v3 : OptVal) :
    ((((base.set "merge_output_format" v1).set "format" v2).set
        "outtmpl" v3).pop "postprocessors").hasKey "merge_output_format" = true ∧
    ((((base.set "merge_output_format" v1).set "format" v2).set
        "outtmpl" v3).pop "postprocessors").hasKey "postprocessors" = false := by
  constructor
  · rw [Dict.hasKey_pop_ne _ _ _ (by decide), Dict.hasKey_set_ne _ _ _ _ (by decide),
      Dict.hasKey_set_ne _ _ _ _ (by decide)]
    exact Dict.hasKey_set_self _ _ _
  · exact Dict.hasKey_pop_self _ _

/-- Key profile of the ripbox mp3 result dict: postprocessors present,
merge format absent. -/
theorem exclusive_mp3_shape (base : Dict) (v1 vp : OptVal) :
    (((base.set "format" v1).pop "merge_output_format").set
        "postprocessors" vp).hasKey "postprocessors" = true ∧
    (((base.set "format" v1).pop "merge_output_format").set
        "postprocessors" vp).hasKey "merge_output_format" = false := by
  constructor
  · exact Dict.hasKey_set_self _ _ _
  · rw [Dict.hasKey_set_ne _ _ _ _ (by decide)]
    exact Dict.hasKey_pop_self _ _

/-- Key profile of the legacy mp3 result dict (it also rewrites
`outtmpl`): postprocessors present, merge format absent. -/
theorem exclusive_mp3_legacy_shape (base : Dict) (v1 v2 vp : OptVal) :
    ((((base.set "format" v1).pop "merge_output_format").set "outtmpl" v2).set
        "postprocessors" vp).hasKey "postprocessors" = true ∧
    ((((base.set "format" v1).pop "merge_output_format").set "outtmpl" v2).set
        "postprocessors" vp).hasKey "merge_output_format" = false := by
  constructor
  · exact Dict.hasKey_set_self _ _ _
  · rw [Dict.hasKey_set_ne _ _ _ _ (by decide), Dict.hasKey_set_ne _ _ _ _ (by decide)]
    exact Dict.hasKey_pop_self _ _

theorem legacy_build_opts_video (base : Dict) (ext t : String)
    (hv : ext = "mp4" ∨ ext = "mkv" ∨ ext = "mov")
    (hg : base.get? "outtmpl" = some (.str t)) :
    legacy.build_opts_for_format base ext =
      .ok ((((base.set "merge_output_format" (.str ext)).set
        "format" (.str "bv*+ba/b")).set
        "outtmpl" (.str (t.replace "%(ext)s" ext))).pop "postprocessors") := by
  simp only [legacy.build_opts_for_format, if_pos hv, hg]

theorem legacy_build_opts_mp3 (base : Dict) (t : String)
    (hg : base.get? "outtmpl" = some (.str t)) :
    legacy.build_opts_for_format base "mp3" =
      .ok ((((base.set "format" (.str "bestaudio/best")).pop
        "merge_output_format").set "outtmpl" (.str (t.replace "%(ext)s" "mp3"))).set
        "postprocessors" (.ppList [⟨"FFmpegExtractAudio", "mp3", "0"⟩])) := by
  simp only [legacy.build_opts_for_format,
    if_neg (by decide : ¬ ("mp3" = "mp4" ∨ "mp3" = "mkv" ∨ "mp3" = "mov")), hg]
  simp

theorem legacy_build_opts_other (base : Dict) (ext t : String)
    (hv : ¬ (ext = "mp4" ∨ ext = "mkv" ∨ ext = "mov")) (hm : ¬ ext = "mp3")
    (hg : base.get? "outtmpl" = some (.str t)) :
    legacy.build_opts_for_format base ext =
      .ok ((((base.set "merge_output_format" (.str "mp4")).set
        "format" (.str "bv*+ba/b")).set
        "outtmpl" (.str (t.replace "%(ext)s" "mp4"))).pop "postprocessors") := by
  simp only [legacy.build_opts_for_format, if_neg hv, if_neg hm, hg]

/-- C7: for every base options dictionary and export format string, the
options produced by `build_opts_for_format` (both the `ripbox/ytdlp_opts.py`
and the `src/downloader.py` version) activate exactly one
container/postprocessing policy: for `mp4`, `mkv`, `mov` and any
unrecognized format the `merge_output_format` key is set and no
`postprocessors` key is present; for `mp3` the audio-extraction
postprocessor is set and no `merge_output_format` key is present; the two
keys are never both present and never both absent. -/
theorem spec_c7 :
    (∀ base ext res, build_opts_for_format base ext = .ok res →
        (ext = "mp3" →
          res.hasKey "postprocessors" = true ∧ res.hasKey "merge_output_format" = false) ∧
        (¬ ext = "mp3" →
          res.hasKey "merge_output_format" = true ∧ res.hasKey "postprocessors" = false) ∧
        res.hasKey "merge_output_format" = !res.hasKey "postprocessors") ∧
    (∀ base ext res, legacy.build_opts_for_format base ext = .ok res →
        (ext = "mp3" →
          res.hasKey "postprocessors" = true ∧ res.hasKey "merge_output_format" = false) ∧
        (¬ ext = "mp3" →
          res.hasKey "merge_output_format" = true ∧ res.hasKey "postprocessors" = false) ∧
        res.hasKey "merge_output_format" = !res.hasKey "postprocessors") := by
  constructor
  · intro base ext res h
    by_cases hv : ext = "mp4" ∨ ext = "mkv" ∨ ext = "mov"
    · have hm : ¬ ext = "mp3" := by
        rcases hv with h1 | h1 | h1 <;> (rw [h1]; decide)
      cases hgv : base.get? "outtmpl" with
      | none =>
          rw [build_opts_for_format, if_pos hv, hgv] at h
          exact absurd h (by simp)
      | some val =>
          cases val
          next t =>
            rw [build_opts_video base ext t hv hgv, Except.ok.injEq] at h
            obtain ⟨h1, h2⟩ := exclusive_video_shape base
              (.str ext) (.str "bv*+ba/b") (.str (t.replace "%(ext)s" ext))
            rw [h] at h1 h2
            exact ⟨fun hc => absurd hc hm, fun _ => ⟨h1, h2⟩, by simp [h1, h2]⟩
          all_goals rw [build_opts_for_format, if_pos hv, hgv] at h
          all_goals exact absurd h (by simp)
    · by_cases hm : ext = "mp3"
      · subst hm
        rw [build_opts_mp3 base, Except.ok.injEq] at h
        obtain ⟨h1, h2⟩ := exclusive_mp3_shape base
          (.str "bestaudio/best") (.ppList [⟨"FFmpegExtractAudio", "mp3", "0"⟩])
        rw [h] at h1 h2
        exact ⟨fun _ => ⟨h1, h2⟩, fun hc => absurd rfl hc, by simp [h1, h2]⟩
      · cases hgv : base.get? "outtmpl" with
        | none =>
            rw [build_opts_for_format, if_neg hv, if_neg hm, hgv] at h
            exact absurd h (by simp)
        | some val =>
            cases val
            next t =>
              rw [build_opts_other base ext t hv hm hgv, Except.ok.injEq] at h
              obtain ⟨h1, h2⟩ := exclusive_video_shape base
                (.str "mp4") (.str "bv*+ba/b") (.str (t.replace "%(ext)s" "mp4"))
              rw [h] at h1 h2
              exact ⟨fun hc => absurd hc hm, fun _ => ⟨h1, h2⟩, by simp [h1, h2]⟩
            all_goals rw [build_opts_for_format, if_neg hv, if_neg hm, hgv] at h
            all_goals exact absurd h (by simp)
  · intro base ext res h
    by_cases hv : ext = "mp4" ∨ ext = "mkv" ∨ ext = "mov"
    · have hm : ¬ ext = "mp3" := by
        rcases hv with h1 | h1 | h1 <;> (rw [h1]; decide)
      cases hgv : base.get? "outtmpl" with
      | none =>
          rw [legacy.build_opts_for_format, if_pos hv, hgv] at h
          exact absurd h (by simp)
      | some val =>
          cases val
          next t =>
            rw [legacy_build_opts_video base ext t hv hgv, Except.ok.injEq] at h
            obtain ⟨h1, h2⟩ := exclusive_video_shape base
              (.str ext) (.str "bv*+ba/b") (.str (t.replace "%(ext)s" ext))
            rw [h] at h1 h2
            exact ⟨fun hc => absurd hc hm, fun _ => ⟨h1, h2⟩, by simp [h1, h2]⟩
          all_goals rw [legacy.build_opts_for_format, if_pos hv, hgv] at h
          all_goals exact absurd h (by simp)
    · by_cases hm : ext = "mp3"
      · subst hm
        cases hgv : base.get? "outtmpl" with
        | none =>
            rw [legacy.build_opts_for_format,
              if_neg (by decide : ¬ ("mp3" = "mp4" ∨ "mp3" = "mkv" ∨ "mp3" = "mov")),
              hgv] at h
            simp at h
        | some val =>
            cases val
            next t =>
              rw [legacy_build_opts_mp3 base t hgv, Except.ok.injEq] at h
              obtain ⟨h1, h2⟩ := exclusive_mp3_legacy_shape base
                (.str "bestaudio/best") (.str (t.replace "%(ext)s" "mp3"))
                (.ppList [⟨"FFmpegExtractAudio", "mp3", "0"⟩])
              rw [h] at h1 h2
              exact ⟨fun _ => ⟨h1, h2⟩, fun hc => absurd rfl hc, by simp [h1, h2]⟩
            all_goals
              rw [legacy.build_opts_for_format,
                if_neg (by decide : ¬ ("mp3" = "mp4" ∨ "mp3" = "mkv" ∨ "mp3" = "mov")),
                hgv] at h
            all_goals simp at h
      · cases hgv : base.get? "outtmpl" with
        | none =>
            rw [legacy.build_opts_for_format, if_neg hv, if_neg hm, hgv] at h
            exact absurd h (by simp)
        | some val =>
            cases val
            next t =>
              rw [legacy_build_opts_other base ext t hv hm hgv, Except.ok.injEq] at h
              obtain ⟨h1, h2⟩ := exclusive_video_shape base
                (.str "mp4") (.str "bv*+ba/b") (.str (t.replace "%(ext)s" "mp4"))
              rw [h] at h1 h2
              exact ⟨fun hc => absurd hc hm, fun _ => ⟨h1, h2⟩, by simp [h1, h2]⟩
            all_goals rw [legacy.build_opts_for_format, if_neg hv, if_neg hm, hgv] at h
            all_goals exact absurd h (by simp)

theorem spec_c7_witness :
    Dict.hasKey [("outtmpl", OptVal.str "x"), ("format", OptVal.str "bestaudio/best"),
        ("postprocessors", OptVal.ppList [⟨"FFmpegExtractAudio", "mp3", "0"⟩])]
      "postprocessors" = true ∧
    Dict.hasKey [("outtmpl", OptVal.str "x"), ("format", OptVal.str "bestaudio/best"),
        ("postprocessors", OptVal.ppList [⟨"FFmpegExtractAudio", "mp3", "0"⟩])]
      "merge_output_format" = false :=
  (spec_c7.1 [("outtmpl", OptVal.str "x")] "mp3"
      [("outtmpl", OptVal.str "x"), ("format", OptVal.str "bestaudio/best"),
        ("postprocessors", OptVal.ppList [⟨"FFmpegExtractAudio", "mp3", "0"⟩])]
      (by rfl)).1 rfl

/-- C8: `build_cookie_attempts` is a pure function of the base options
dict; when the base contains a `cookiefile` entry it returns exactly that
one candidate (short-circuiting browser enumeration), and otherwise it
returns exactly one candidate per browser source in the fixed registry
order firefox, chromium, chrome, brave, edge, opera, vivaldi, each with
`cookiesfrombrowser` set to the source tuple. -/
theorem spec_c8 :
    (∀ base, base.hasKey "cookiefile" = true →
        build_cookie_attempts base = [("cookiefile", base)]) ∧
    (∀ base, base.hasKey "cookiefile" = false →
        build_cookie_attempts base =
          [("browser:firefox", base.set "cookiesfrombrowser" (.strs ["firefox"])),
           ("browser:chromium", base.set "cookiesfrombrowser" (.strs ["chromium"])),
           ("browser:chrome", base.set "cookiesfrombrowser" (.strs ["chrome"])),
           ("browser:brave", base.set "cookiesfrombrowser" (.strs ["brave"])),
           ("browser:edge", base.set "cookiesfrombrowser" (.strs ["edge"])),
           ("browser:opera", base.set "cookiesfrombrowser" (.strs ["opera"])),
           ("browser:vivaldi", base.set "cookiesfrombrowser" (.strs ["vivaldi"]))]) := by
  constructor
  · intro base hb
    simp [build_cookie_attempts, hb]
  · intro base hb
    simp only [build_cookie_attempts, hb, Bool.false_eq_true, if_false, cookie_sources,
      List.map_cons, List.map_nil, List.headD]
    rfl

theorem spec_c8_witness :
    build_cookie_attempts [("cookiefile", OptVal.str "c.txt")] =
      [("cookiefile", [("cookiefile", OptVal.str "c.txt")])] ∧
    build_cookie_attempts [] =
      [("browser:firefox", [("cookiesfrombrowser", OptVal.strs ["firefox"])]),
       ("browser:chromium", [("cookiesfrombrowser", OptVal.strs ["chromium"])]),
       ("browser:chrome", [("cookiesfrombrowser", OptVal.strs ["chrome"])]),
       ("browser:brave", [("cookiesfrombrowser", OptVal.strs ["brave"])]),
       ("browser:edge", [("cookiesfrombrowser", OptVal.strs ["edge"])]),
       ("browser:opera", [("cookiesfrombrowser", OptVal.strs ["opera"])]),
       ("browser:vivaldi", [("cookiesfrombrowser", OptVal.strs ["vivaldi"])])] :=
  ⟨spec_c8.1 [("cookiefile", OptVal.str "c.txt")] rfl, spec_c8.2 [] rfl⟩

/-- C9: `resolve_output_dir` raises a `ValueError` with a clear message
and performs no directory creation whenever the user input is an absolute
path; for empty input it returns the fixed base `~/Downloads` and for any
other relative input the corresponding sub-path of the base, creating the
returned directory (with parents) in both cases.  Every returned directory
is an extension of the base. -/
theorem spec_c9 : ∀ home user_input,
    (isAbsolutePath user_input = true →
      resolve_output_dir home user_input =
        { result := .error "Absolute paths are not allowed. Use subfolders only."
          mkdirCalls := [] }) ∧
    (user_input = "" →
      resolve_output_dir home user_input =
        { result := .ok (home ++ "/Downloads")
          mkdirCalls := [home ++ "/Downloads"] }) ∧
    (¬ user_input = "" → isAbsolutePath user_input = false →
      resolve_output_dir home user_input =
        { result := .ok (home ++ "/Downloads" ++ "/" ++ user_input)
          mkdirCalls := [home ++ "/Downloads" ++ "/" ++ user_input] }) ∧
    (∀ d, (resolve_output_dir home user_input).result = .ok d →
      ∃ rest, d = (home ++ "/Downloads") ++ rest) := by
  intro home user_input
  refine ⟨?_, ?_, ?_, ?_⟩
  · intro habs
    have hne : ¬ user_input = "" := by
      intro h
      rw [h] at habs
      exact absurd habs (by decide)
    simp [resolve_output_dir, hne, habs]
  · intro h
    simp [resolve_output_dir, h]
  · intro hne habs
    simp [resolve_output_dir, hne, habs]
  · intro d hd
    by_cases h0 : user_input = ""
    · simp [resolve_output_dir, h0] at hd
      exact ⟨"", by rw [← hd, String.append_empty]⟩
    · by_cases habs : isAbsolutePath user_input = true
      · simp [resolve_output_dir, h0, habs] at hd
      · simp [resolve_output_dir, h0, habs] at hd
        exact ⟨"/" ++ user_input, by rw [← hd, String.append_assoc]⟩

theorem spec_c9_witness :
    resolve_output_dir "/home/u" "/etc" =
      { result := .error "Absolute paths are not allowed. Use subfolders only."
        mkdirCalls := [] } ∧
    resolve_output_dir "/home/u" "" =
      { result := .ok "/home/u/Downloads", mkdirCalls := ["/home/u/Downloads"] } ∧
    resolve_output_dir "/home/u" "vids" =
      { result := .ok "/home/u/Downloads/vids", mkdirCalls := ["/home/u/Downloads/vids"] } :=
  ⟨(spec_c9 "/home/u" "/etc").1 rfl,
   (spec_c9 "/home/u" "").2.1 rfl,
   (spec_c9 "/home/u" "vids").2.2.1 (by decide) rfl⟩

/-!  Output-verification lemmas for the executor. -/

theorem mem_dedupFirst {p : String} : ∀ l, p ∈ dedupFirst l → p ∈ l := by
  intro l
  induction l using dedupFirst.induct with
  | case1 => simp [dedupFirst]
  | case2 x xs ih =>
      rw [dedupFirst]
      intro h
      rcases List.mem_cons.mp h with h | h
      · exact h ▸ List.mem_cons_self x xs
      · exact List.mem_cons_of_mem _ (List.mem_filter.mp (ih h)).1

theorem existing_path_some {fs : String → Bool} {a : Option String} {p : String}
    (h : existing_path fs a = some p) : fs p = true ∧ a = some p := by
  cases a with
  | none => simp [existing_path] at h
  | some s =>
      by_cases h0 : s = ""
      · simp [existing_path, h0] at h
      · by_cases hfs : fs s = true
        · simp [existing_path, h0, hfs] at h
          exact ⟨h ▸ hfs, by rw [h]⟩
        · simp [existing_path, h0, hfs] at h

theorem mem_collect_fs {fs : String → Bool} {info : EngineInfo} {p : String}
    (h : p ∈ collect_candidate_outputs fs info) : fs p = true := by
  have h1 := mem_dedupFirst _ h
  obtain ⟨a, _, ha⟩ := List.mem_filterMap.mp h1
  exact (existing_path_some ha).1

theorem collect_empty_of_missing {fs : String → Bool} {info : EngineInfo}
    (h : ∀ s, some s ∈ candidate_paths info → fs s = false) :
    collect_candidate_outputs fs info = [] := by
  unfold collect_candidate_outputs
  have hfm : (candidate_paths info).filterMap (existing_path fs) = [] := by
    rw [List.filterMap_eq_nil_iff]
    intro a ha
    cases a with
    | none => rfl
    | some s =>
        by_cases h0 : s = ""
        · simp [existing_path, h0]
        · simp [existing_path, h0, h s ha]
  rw [hfm]
  simp [dedupFirst]

/-- C5: `run_download` returns `ok = true` only when at least one of the
candidate output paths collected from the engine's result exists on the
filesystem at verification time (every collected path passed the existence
check); when the engine reports success but none of the claimed output
paths exists on disk, the result is `ok = false` with the captured or
default error message. -/
theorem spec_c5 :
    (∀ fs beh last_error, (run_download fs beh last_error).ok = true →
      ∃ info, beh = .returns (some info) ∧
        collect_candidate_outputs fs info ≠ [] ∧
        ∀ p ∈ collect_candidate_outputs fs info, fs p = true) ∧
    (∀ fs info last_error,
      (∀ s, some s ∈ candidate_paths info → fs s = false) →
      run_download fs (.returns (some info)) last_error =
        { ok := false
          error := some (pyOr last_error "No output file was created (treating as failure).") }) := by
  constructor
  · intro fs beh le h
    cases beh with
    | interrupt => simp [run_download] at h
    | downloadError msg => simp [run_download] at h
    | otherError msg => simp [run_download] at h
    | returns oinfo =>
        cases oinfo with
        | none => simp [run_download] at h
        | some info =>
            by_cases hemp : (collect_candidate_outputs fs info).isEmpty = true
            · simp [run_download, hemp] at h
            · refine ⟨info, rfl, ?_, fun p hp => mem_collect_fs hp⟩
              intro hnil
              exact hemp (by rw [hnil]; rfl)
  · intro fs info le h
    have hc := collect_empty_of_missing h
    simp [run_download, hc]

def infoGhost : EngineInfo :=
  { filename := some "/tmp/out.mp4", prepared := none
    requested_downloads := none, entries := none }

theorem spec_c5_witness :
    run_download (fun _ => false) (.returns (some infoGhost)) none =
      { ok := false, error := some "No output file was created (treating as failure)." } := by
  simpa [pyOr] using spec_c5.2 (fun _ => false) infoGhost none (fun s _ => rfl)

/-!  Sweep-loop lemmas for the escalation state machine. -/

/-- An attempt that failed with an `Unknown` classification and was not a
cancellation: the sweep retains the error and continues. -/
def unknownFail (env : Env) (r : DownloadResult) : Prop :=
  ¬ r.error = some "Cancelled by user" ∧ r.ok = false ∧
    env.isPerm r.error = false ∧ env.isNet r.error = false

instance (env : Env) (r : DownloadResult) : Decidable (unknownFail env r) := by
  unfold unknownFail
  infer_instance

/-- The options dict actually passed to the executor for a candidate (the
`.ok` payload of `build_opts_for_format`). -/
def buildOk (d : Dict) (ext : String) : Dict :=
  (build_opts_for_format d ext).toOption.getD []

theorem isOk_exists {d : Dict} {ext : String}
    (h : (build_opts_for_format d ext).isOk = true) :
    ∃ o, build_opts_for_format d ext = .ok o := by
  cases hbe : build_opts_for_format d ext with
  | ok o => exact ⟨o, rfl⟩
  | error e => rw [hbe] at h; simp [Except.isOk, Except.toBool] at h

theorem buildOk_eq {d : Dict} {ext : String} {o : Dict}
    (h : build_opts_for_format d ext = .ok o) : buildOk d ext = o := by
  rw [buildOk, h]
  rfl

/-- When every candidate of the sweep fails with an `Unknown`
classification, the whole registry list is attempted in order and the
sweep reports the last encountered error (the seed error when the list is
empty). -/
theorem sweepLoop_all_unknown (env : Env) (exec : Nat → DownloadResult) (ext : String) :
    ∀ (attempts : List (String × Dict)) (k : Nat) (le : Option String),
    (∀ a ∈ attempts, (build_opts_for_format a.2 ext).isOk = true) →
    (∀ j, j < attempts.length → unknownFail env (exec (k + j))) →
    sweepLoop env exec k ext attempts le =
      { res := .noSuccess
          (if attempts.length = 0 then le else (exec (k + attempts.length - 1)).error)
        calls := attempts.map (fun a => buildOk a.2 ext)
        next := k + attempts.length } := by
  intro attempts
  induction attempts with
  | nil =>
      intro k le _ _
      simp [sweepLoop]
  | cons a rest ih =>
      intro k le hb hu
      obtain ⟨mode, cb⟩ := a
      obtain ⟨o, ho⟩ := isOk_exists (hb _ (List.mem_cons_self _ _))
      have hu0 : unknownFail env (exec k) := by simpa using hu 0 (by simp)
      obtain ⟨hns, hok, hperm, hnet⟩ := hu0
      have hrec := ih (k + 1) (exec k).error
        (fun a ha => hb a (List.mem_cons_of_mem _ ha))
        (fun j hj => by
          have := hu (j + 1) (by simpa using Nat.succ_lt_succ hj)
          have hidx : k + (j + 1) = k + 1 + j := by omega
          rwa [hidx] at this)
      simp only [sweepLoop, ho, hok, Bool.false_eq_true, if_false, if_neg hns,
        hperm, hnet, Bool.or_self, hrec]
      rw [List.map_cons, buildOk_eq ho]
      simp only [SweepOut.mk.injEq, List.length_cons, SweepRes.noSuccess.injEq]
      refine ⟨?_, trivial, by omega⟩
      by_cases h0 : rest.length = 0
      · simp [h0]
      · have e : k + 1 + rest.length - 1 = k + (rest.length + 1) - 1 := by omega
        simp [h0, e]

/-- The first candidate to succeed (after a prefix of `Unknown` failures)
ends the sweep immediately: only the first `i + 1` candidates are
attempted, in registry order, and the sweep reports that candidate's
`(mode, cookie_base)` for locking. -/
theorem sweepLoop_first_success (env : Env) (exec : Nat → DownloadResult) (ext : String) :
    ∀ (attempts : List (String × Dict)) (i k : Nat) (le : Option String)
      (mode : String) (cb : Dict),
    attempts[i]? = some (mode, cb) →
    (∀ a ∈ attempts, (build_opts_for_format a.2 ext).isOk = true) →
    (∀ j, j < i → unknownFail env (exec (k + j))) →
    ¬ (exec (k + i)).error = some "Cancelled by user" →
    (exec (k + i)).ok = true →
    sweepLoop env exec k ext attempts le =
      { res := .locked mode cb
        calls := (attempts.take (i + 1)).map (fun a => buildOk a.2 ext)
        next := k + i + 1 } := by
  intro attempts
  induction attempts with
  | nil =>
      intro i k le mode cb hget _ _ _ _
      simp at hget
  | cons a rest ih =>
      intro i k le mode cb hget hb hu hns hok
      obtain ⟨amode, acb⟩ := a
      obtain ⟨o, ho⟩ := isOk_exists (hb _ (List.mem_cons_self _ _))
      cases i with
      | zero =>
          simp only [List.getElem?_cons_zero, Option.some.injEq, Prod.mk.injEq] at hget
          obtain ⟨h1, h2⟩ := hget
          subst h1
          subst h2
          have hns' : ¬ (exec k).error = some "Cancelled by user" := by simpa using hns
          have hok' : (exec k).ok = true := by simpa using hok
          simp only [sweepLoop, ho, if_neg hns', hok', if_true, List.take_succ_cons,
            List.take_zero, List.map_cons, List.map_nil]
          rw [buildOk_eq ho]
      | succ i' =>
          have hu0 : unknownFail env (exec k) := by simpa using hu 0 (by omega)
          obtain ⟨hns0, hok0, hperm0, hnet0⟩ := hu0
          have hget' : rest[i']? = some (mode, cb) := by simpa using hget
          have hrec := ih i' (k + 1) (exec k).error mode cb hget'
            (fun a ha => hb a (List.mem_cons_of_mem _ ha))
            (fun j hj => by
              have := hu (j + 1) (by omega)
              have hidx : k + (j + 1) = k + 1 + j := by omega
              rwa [hidx] at this)
            (by have hidx : k + 1 + i' = k + (i' + 1) := by omega
                rwa [hidx])
            (by have hidx : k + 1 + i' = k + (i' + 1) := by omega
                rwa [hidx])
          simp only [sweepLoop, ho, hok0, Bool.false_eq_true, if_false, if_neg hns0,
            hperm0, hnet0, Bool.or_self, hrec, List.take_succ_cons, List.map_cons]
          rw [buildOk_eq ho]
          simp only [SweepOut.mk.injEq, true_and]
          omega

/-- The first candidate to fail with a `PermanentUnavailable` or `Network`
classification (after a prefix of `Unknown` failures) stops the sweep
immediately: the remaining candidates are not attempted and the sweep
reports that candidate's error. -/
theorem sweepLoop_first_terminal (env : Env) (exec : Nat → DownloadResult) (ext : String) :
    ∀ (attempts : List (String × Dict)) (i k : Nat) (le : Option String),
    i < attempts.length →
    (∀ a ∈ attempts, (build_opts_for_format a.2 ext).isOk = true) →
    (∀ j, j < i → unknownFail env (exec (k + j))) →
    ¬ (exec (k + i)).error = some "Cancelled by user" →
    (exec (k + i)).ok = false →
    (env.isPerm (exec (k + i)).error || env.isNet (exec (k + i)).error) = true →
    sweepLoop env exec k ext attempts le =
      { res := .noSuccess ((exec (k + i)).error)
        calls := (attempts.take (i + 1)).map (fun a => buildOk a.2 ext)
        next := k + i + 1 } := by
  intro attempts
  induction attempts with
  | nil =>
      intro i k le hlen _ _ _ _ _
      simp at hlen
  | cons a rest ih =>
      intro i k le hlen hb hu hns hok hcls
      obtain ⟨amode, acb⟩ := a
      obtain ⟨o, ho⟩ := isOk_exists (hb _ (List.mem_cons_self _ _))
      cases i with
      | zero =>
          have hns' : ¬ (exec k).error = some "Cancelled by user" := by simpa using hns
          have hok' : (exec k).ok = false := by simpa using hok
          have hcls' : (env.isPerm (exec k).error || env.isNet (exec k).error) = true := by
            simpa using hcls
          simp only [sweepLoop, ho, if_neg hns', hok', Bool.false_eq_true, if_false,
            hcls', if_true, List.take_succ_cons, List.take_zero, List.map_cons,
            List.map_nil]
          rw [buildOk_eq ho]
          simp
      | succ i' =>
          have hu0 : unknownFail env (exec k) := by simpa using hu 0 (by omega)
          obtain ⟨hns0, hok0, hperm0, hnet0⟩ := hu0
          have hrec := ih i' (k + 1) (exec k).error (by simpa using hlen)
            (fun a ha => hb a (List.mem_cons_of_mem _ ha))
            (fun j hj => by
              have := hu (j + 1) (by omega)
              have hidx : k + (j + 1) = k + 1 + j := by omega
              rwa [hidx] at this)
            (by have hidx : k + 1 + i' = k + (i' + 1) := by omega
                rwa [hidx])
            (by have hidx : k + 1 + i' = k + (i' + 1) := by omega
                rwa [hidx])
            (by have hidx : k + 1 + i' = k + (i' + 1) := by omega
                rwa [hidx])
          simp only [sweepLoop, ho, hok0, Bool.false_eq_true, if_false, if_neg hns0,
            hperm0, hnet0, Bool.or_self, hrec, List.take_succ_cons, List.map_cons]
          rw [buildOk_eq ho]
          simp only [SweepOut.mk.injEq, true_and, SweepRes.noSuccess.injEq]
          have hidx : k + 1 + i' = k + (i' + 1) := by omega
          rw [hidx]
          simp

/-- A cancelled sweep contains a call whose result carried the
cancellation sentinel. -/
theorem sweepLoop_cancelled (env : Env) (exec : Nat → DownloadResult) (ext : String) :
    ∀ (attempts : List (String × Dict)) (k : Nat) (le : Option String),
    (sweepLoop env exec k ext attempts le).res = .cancelled →
    ∃ j, k ≤ j ∧ j < (sweepLoop env exec k ext attempts le).next ∧
      (exec j).error = some "Cancelled by user" := by
  intro attempts
  induction attempts with
  | nil =>
      intro k le h
      simp [sweepLoop] at h
  | cons a rest ih =>
      intro k le h
      obtain ⟨amode, acb⟩ := a
      cases hbe : build_opts_for_format acb ext with
      | error e =>
          rw [sweepLoop] at h
          simp only [hbe] at h
          simp at h
      | ok o =>
          rw [sweepLoop] at h
          simp only [hbe] at h
          by_cases hns : (exec k).error = some "Cancelled by user"
          · refine ⟨k, Nat.le_refl k, ?_, hns⟩
            rw [sweepLoop]
            simp only [hbe, if_pos hns]
            omega
          · rw [if_neg hns] at h
            by_cases hok : (exec k).ok = true
            · simp [hok] at h
            · simp only [hok, Bool.false_eq_true, if_false] at h
              by_cases hcls : (env.isPerm (exec k).error || env.isNet (exec k).error) = true
              · simp [hcls] at h
              · simp only [hcls, Bool.false_eq_true, if_false] at h
                obtain ⟨j, hj1, hj2, hj3⟩ := ih (k + 1) (exec k).error h
                refine ⟨j, by omega, ?_, hj3⟩
                rw [sweepLoop]
                simp only [hbe, if_neg hns, hok, Bool.false_eq_true, if_false, hcls]
                simpa using hj2

/-- The base options always carry the output template as a string. -/
theorem build_base_opts_outtmpl (env : Env) (ec : Bool) :
    (build_base_opts env ec).get? "outtmpl" =
      some (.str (env.out_dir ++ "/%(title)s [%(id)s].%(ext)s")) := by
  simp only [build_base_opts]
  cases env.nodePath with
  | none =>
      cases ec with
      | false => simp [Dict.get?]
      | true =>
          cases env.cookieFileExists with
          | false => simp [Dict.get?]
          | true =>
              rw [if_pos rfl, if_pos rfl, Dict.get?_set_ne _ _ _ _ (by decide)]
              simp [Dict.get?]
  | some p =>
      cases ec with
      | false =>
          rw [if_neg (by simp), Dict.get?_set_ne _ _ _ _ (by decide)]
          simp [Dict.get?]
      | true =>
          cases env.cookieFileExists with
          | false =>
              rw [if_pos rfl, if_neg (by simp), Dict.get?_set_ne _ _ _ _ (by decide)]
              simp [Dict.get?]
          | true =>
              rw [if_pos rfl, if_pos rfl, Dict.get?_set_ne _ _ _ _ (by decide),
                Dict.get?_set_ne _ _ _ _ (by decide)]
              simp [Dict.get?]

/-- Every candidate produced by the registry keeps the base's output
template. -/
theorem build_cookie_attempts_outtmpl (base : Dict) (t : String)
    (hg : base.get? "outtmpl" = some (.str t)) :
    ∀ a ∈ build_cookie_attempts base, a.2.get? "outtmpl" = some (.str t) := by
  intro a ha
  rw [build_cookie_attempts] at ha
  by_cases hk : base.hasKey "cookiefile" = true
  · simp only [hk, if_true, List.mem_singleton] at ha
    rw [ha]
    exact hg
  · rw [if_neg hk] at ha
    obtain ⟨src, _, heq⟩ := List.mem_map.mp ha
    rw [← heq]
    rw [Dict.get?_set_ne _ _ _ _ (by decide)]
    exact hg

/-- A dict carrying a string output template never makes
`build_opts_for_format` raise. -/
theorem build_opts_isOk (d : Dict) (ext t : String)
    (hg : d.get? "outtmpl" = some (.str t)) :
    (build_opts_for_format d ext).isOk = true := by
  by_cases hv : ext = "mp4" ∨ ext = "mkv" ∨ ext = "mov"
  · rw [build_opts_video d ext t hv hg]
    rfl
  · by_cases hm : ext = "mp3"
    · subst hm
      rw [build_opts_mp3]
      rfl
    · rw [build_opts_other d ext t hv hm hg]
      rfl

/-- C3: a (URL, format) pair whose credential-free first attempt is not a
cancellation and either succeeds or fails with a `PermanentUnavailable` or
`Network` classification makes exactly one executor call (neither the
locked-credential state nor the sweep is entered); the classified failure
is recorded as terminal and a success leaves the session's locked
credential unchanged. -/
theorem spec_c3 : ∀ (env : Env) (exec : Nat → DownloadResult) (k : Nat)
    (lock : Option Lock) (ext : String) (o : Dict),
    build_opts_for_format (build_base_opts env false) ext = .ok o →
    ¬ (exec k).error = some "Cancelled by user" →
    (((exec k).ok = true →
        processFormat env exec k lock ext =
          { res := .success, lock := lock, calls := [o], next := k + 1 }) ∧
     ((exec k).ok = false →
      (env.isPerm (exec k).error = true ∨ env.isNet (exec k).error = true) →
        processFormat env exec k lock ext =
          { res := .failed (exec k).error, lock := lock, calls := [o], next := k + 1 })) := by
  intro env exec k lock ext o hbuild hns
  constructor
  · intro hok
    simp only [processFormat, hbuild, if_neg hns, hok, if_true]
  · intro hok hcls
    by_cases hperm : env.isPerm (exec k).error = true
    · simp only [processFormat, hbuild, if_neg hns, hok, Bool.false_eq_true, if_false,
        hperm, if_true]
    · have hnet : env.isNet (exec k).error = true := by
        rcases hcls with h | h
        · exact absurd h hperm
        · exact h
      simp only [processFormat, hbuild, if_neg hns, hok, Bool.false_eq_true, if_false,
        hperm, hnet, if_true]

def envA : Env :=
  { out_dir := "o", cookieFileExists := false, cookiePath := "", poToken := ""
    nodePath := none
    isPerm := fun e => e = some "gone"
    isNet := fun e => e = some "net"
    check := fun _ => (true, "") }

def execGone : Nat → DownloadResult :=
  fun _ => { ok := false, error := some "gone" }

theorem spec_c3_witness :
    processFormat envA execGone 0 none "mp3" =
      { res := .failed (some "gone"), lock := none
        calls := [buildOk (build_base_opts envA false) "mp3"], next := 1 } :=
  (spec_c3 envA execGone 0 none "mp3" (buildOk (build_base_opts envA false) "mp3")
      (by rw [build_opts_mp3]; rw [buildOk, build_opts_mp3]; rfl)
      (by decide)).2 rfl (Or.inl (by decide))

/-- After an `Unknown` no-credentials failure with a locked credential
set, `processFormat` proceeds exactly with the locked-credential attempt
(cli.py 132–148). -/
theorem processFormat_locked_unknown (env : Env) (exec : Nat → DownloadResult)
    (k : Nat) (m : String) (cb : Dict) (ext : String) (o0 oL : Dict)
    (hb0 : build_opts_for_format (build_base_opts env false) ext = .ok o0)
    (hbL : build_opts_for_format cb ext = .ok oL)
    (hns0 : ¬ (exec k).error = some "Cancelled by user")
    (hok0 : (exec k).ok = false)
    (hperm0 : env.isPerm (exec k).error = false)
    (hnet0 : env.isNet (exec k).error = false) :
    processFormat env exec k (some (m, cb)) ext =
      (if (exec (k + 1)).error = some "Cancelled by user" then
        { res := .cancelled, lock := some (m, cb), calls := [o0, oL], next := k + 2 }
      else if (exec (k + 1)).ok then
        { res := .success, lock := some (m, cb), calls := [o0, oL], next := k + 2 }
      else if env.isPerm (exec (k + 1)).error || env.isNet (exec (k + 1)).error then
        { res := .failed ((exec (k + 1)).error), lock := some (m, cb)
          calls := [o0, oL], next := k + 2 }
      else sweepPhase env exec (k + 2) (some (m, cb)) ext (exec k).error [o0, oL]) := by
  simp only [processFormat, hb0, if_neg hns0, hok0, Bool.false_eq_true, if_false,
    hperm0, hnet0, hbL]

/-- C2: when a pair's no-credentials attempt fails `Unknown` (and is not a
cancellation) while a locked credential is set, the very next executor
invocation uses exactly the locked configuration template specialized to
the requested format; success ends the pair, a `PermanentUnavailable` or
`Network` failure is terminal with the sweep skipped (two calls in total),
and only an `Unknown` failure enters the sweep. -/
theorem spec_c2 : ∀ (env : Env) (exec : Nat → DownloadResult) (k : Nat)
    (m : String) (cb : Dict) (ext : String) (o0 oL : Dict),
    build_opts_for_format (build_base_opts env false) ext = .ok o0 →
    build_opts_for_format cb ext = .ok oL →
    ¬ (exec k).error = some "Cancelled by user" →
    (exec k).ok = false →
    env.isPerm (exec k).error = false →
    env.isNet (exec k).error = false →
    ((processFormat env exec k (some (m, cb)) ext).calls.take 2 = [o0, oL]) ∧
    (¬ (exec (k + 1)).error = some "Cancelled by user" →
      (((exec (k + 1)).ok = true →
          processFormat env exec k (some (m, cb)) ext =
            { res := .success, lock := some (m, cb), calls := [o0, oL], next := k + 2 }) ∧
       ((exec (k + 1)).ok = false →
        (env.isPerm (exec (k + 1)).error || env.isNet (exec (k + 1)).error) = true →
          processFormat env exec k (some (m, cb)) ext =
            { res := .failed ((exec (k + 1)).error), lock := some (m, cb)
              calls := [o0, oL], next := k + 2 }) ∧
       ((exec (k + 1)).ok = false →
        (env.isPerm (exec (k + 1)).error || env.isNet (exec (k + 1)).error) = false →
          processFormat env exec k (some (m, cb)) ext =
            sweepPhase env exec (k + 2) (some (m, cb)) ext (exec k).error [o0, oL]))) := by
  intro env exec k m cb ext o0 oL hb0 hbL hns0 hok0 hperm0 hnet0
  have hpf := processFormat_locked_unknown env exec k m cb ext o0 oL
    hb0 hbL hns0 hok0 hperm0 hnet0
  constructor
  · rw [hpf]
    by_cases h1 : (exec (k + 1)).error = some "Cancelled by user"
    · simp [h1]
    · rw [if_neg h1]
      by_cases h2 : (exec (k + 1)).ok = true
      · simp [h2]
      · simp only [h2, Bool.false_eq_true, if_false]
        by_cases h3 : (env.isPerm (exec (k + 1)).error || env.isNet (exec (k + 1)).error) = true
        · simp [h3]
        · simp only [h3, Bool.false_eq_true, if_false]
          simp only [sweepPhase]
          cases hs : (sweepLoop env exec (k + 2) ext
              (build_cookie_attempts (build_base_opts env true)) (exec k).error).res <;>
            simp [List.take_append_of_le_length]
  · intro hns1
    refine ⟨?_, ?_, ?_⟩
    · intro hok1
      rw [hpf, if_neg hns1, if_pos hok1]
    · intro hok1 hcls1
      rw [hpf, if_neg hns1]
      simp only [hok1, Bool.false_eq_true, if_false, hcls1, if_true]
    · intro hok1 hcls1
      rw [hpf, if_neg hns1]
      simp only [hok1, Bool.false_eq_true, if_false, hcls1]

def execLocked : Nat → DownloadResult :=
  fun n => if n = 0 then { ok := false, error := some "x" } else { ok := true, error := none }

theorem spec_c2_witness :
    processFormat envA execLocked 0 (some ("cookiefile", [("outtmpl", OptVal.str "t")])) "mp3" =
      { res := .success, lock := some ("cookiefile", [("outtmpl", OptVal.str "t")])
        calls := [buildOk (build_base_opts envA false) "mp3",
                  buildOk [("outtmpl", OptVal.str "t")] "mp3"]
        next := 2 } :=
  ((spec_c2 envA execLocked 0 "cookiefile" [("outtmpl", OptVal.str "t")] "mp3"
      (buildOk (build_base_opts envA false) "mp3")
      (buildOk [("outtmpl", OptVal.str "t")] "mp3")
      (by rw [build_opts_mp3]; rw [buildOk, build_opts_mp3]; rfl)
      (by rw [build_opts_mp3]; rw [buildOk, build_opts_mp3]; rfl)
      (by decide) (by decide) (by decide) (by decide)).2 (by decide)).1 rfl

/-- The registry never returns an empty candidate list: one candidate with
a configured cookie file, seven browser candidates otherwise. -/
theorem build_cookie_attempts_length (base : Dict) :
    (build_cookie_attempts base).length =
      if base.hasKey "cookiefile" then 1 else 7 := by
  by_cases hk : base.hasKey "cookiefile" = true
  · simp [build_cookie_attempts, hk]
  · rw [build_cookie_attempts, if_neg hk, if_neg hk]
    simp [cookie_sources]

/-- C1: the credential sweep attempts the registry's candidates in
registry order.  If every candidate fails `Unknown`, every candidate is
attempted and the pair is a terminal failure carrying the last
candidate's error (and an empty candidate list would report the
no-credentials seed error).  The first success ends the sweep after
`i + 1` attempts and records that candidate's `(mode, configuration)`
into the locked credential, overwriting any prior lock.  The first
`PermanentUnavailable`/`Network` failure ends the sweep after `i + 1`
attempts as a terminal failure. -/
theorem spec_c1 : ∀ (env : Env) (exec : Nat → DownloadResult) (k : Nat)
    (lock : Option Lock) (ext : String) (r0err : Option String) (callsAcc : List Dict),
    ((∀ j, j < (build_cookie_attempts (build_base_opts env true)).length →
        unknownFail env (exec (k + j))) →
      sweepPhase env exec k lock ext r0err callsAcc =
        { res := .failed ((exec (k +
              (build_cookie_attempts (build_base_opts env true)).length - 1)).error)
          lock := lock
          calls := callsAcc ++ (build_cookie_attempts (build_base_opts env true)).map
            (fun a => buildOk a.2 ext)
          next := k + (build_cookie_attempts (build_base_opts env true)).length }) ∧
    (∀ i (m : String) (cb : Dict),
      (build_cookie_attempts (build_base_opts env true))[i]? = some (m, cb) →
      (∀ j, j < i → unknownFail env (exec (k + j))) →
      ¬ (exec (k + i)).error = some "Cancelled by user" →
      (exec (k + i)).ok = true →
      sweepPhase env exec k lock ext r0err callsAcc =
        { res := .success
          lock := some (m, cb)
          calls := callsAcc ++ ((build_cookie_attempts (build_base_opts env true)).take
            (i + 1)).map (fun a => buildOk a.2 ext)
          next := k + i + 1 }) ∧
    (∀ i, i < (build_cookie_attempts (build_base_opts env true)).length →
      (∀ j, j < i → unknownFail env (exec (k + j))) →
      ¬ (exec (k + i)).error = some "Cancelled by user" →
      (exec (k + i)).ok = false →
      (env.isPerm (exec (k + i)).error || env.isNet (exec (k + i)).error) = true →
      sweepPhase env exec k lock ext r0err callsAcc =
        { res := .failed ((exec (k + i)).error)
          lock := lock
          calls := callsAcc ++ ((build_cookie_attempts (build_base_opts env true)).take
            (i + 1)).map (fun a => buildOk a.2 ext)
          next := k + i + 1 }) ∧
    (sweepLoop env exec k ext [] r0err =
      { res := .noSuccess r0err, calls := [], next := k }) := by
  intro env exec k lock ext r0err callsAcc
  have hg := build_base_opts_outtmpl env true
  have hAll : ∀ a ∈ build_cookie_attempts (build_base_opts env true),
      (build_opts_for_format a.2 ext).isOk = true :=
    fun a ha => build_opts_isOk _ ext _
      (build_cookie_attempts_outtmpl _ _ hg a ha)
  have hlen : (build_cookie_attempts (build_base_opts env true)).length ≠ 0 := by
    rw [build_cookie_attempts_length]
    by_cases hk : (build_base_opts env true).hasKey "cookiefile" = true
    · simp [hk]
    · simp [hk]
  refine ⟨?_, ?_, ?_, by simp [sweepLoop]⟩
  · intro hu
    have hs := sweepLoop_all_unknown env exec ext
      (build_cookie_attempts (build_base_opts env true)) k r0err hAll hu
    rw [if_neg hlen] at hs
    simp only [sweepPhase, hs]
  · intro i m cb hget hu hns hok
    have hs := sweepLoop_first_success env exec ext
      (build_cookie_attempts (build_base_opts env true)) i k r0err m cb
      hget hAll hu hns hok
    simp only [sweepPhase, hs]
  · intro i hi hu hns hok hcls
    have hs := sweepLoop_first_terminal env exec ext
      (build_cookie_attempts (build_base_opts env true)) i k r0err
      hi hAll hu hns hok hcls
    simp only [sweepPhase, hs]

def envCk : Env :=
  { out_dir := "o", cookieFileExists := true, cookiePath := "cookies.txt", poToken := ""
    nodePath := none
    isPerm := fun e => e = some "gone"
    isNet := fun e => e = some "net"
    check := fun _ => (true, "") }

def execOk0 : Nat → DownloadResult :=
  fun _ => { ok := true, error := none }

theorem spec_c1_witness :
    sweepPhase envCk execOk0 0 none "mp3" (some "auth") [] =
      { res := .success
        lock := some ("cookiefile", build_base_opts envCk true)
        calls := [buildOk (build_base_opts envCk true) "mp3"]
        next := 1 } := by
  have h := (spec_c1 envCk execOk0 0 none "mp3" (some "auth") []).2.1 0
    "cookiefile" (build_base_opts envCk true) (by rfl)
    (fun j hj => absurd hj (Nat.not_lt_zero j)) (by decide) rfl
  simpa using h

/-- Cancellation sentinel on the very first (no-credentials) call aborts
the pair immediately. -/
theorem processFormat_cancel_first (env : Env) (exec : Nat → DownloadResult)
    (k : Nat) (lock : Option Lock) (ext : String) (o0 : Dict)
    (hb0 : build_opts_for_format (build_base_opts env false) ext = .ok o0)
    (hsent : (exec k).error = some "Cancelled by user") :
    processFormat env exec k lock ext =
      { res := .cancelled, lock := lock, calls := [o0], next := k + 1 } := by
  simp only [processFormat, hb0, hsent]
  simp

/-- Cancellation sentinel on the first sweep candidate aborts the sweep. -/
theorem sweepLoop_cancel_first (env : Env) (exec : Nat → DownloadResult)
    (k : Nat) (ext : String) (m : String) (cb : Dict)
    (rest : List (String × Dict)) (le : Option String) (o : Dict)
    (ho : build_opts_for_format cb ext = .ok o)
    (hsent : (exec k).error = some "Cancelled by user") :
    sweepLoop env exec k ext ((m, cb) :: rest) le =
      { res := .cancelled, calls := [o], next := k + 1 } := by
  rw [sweepLoop]
  simp only [ho, hsent]
  simp

/-- A cancelled sweep phase contains a call that returned the sentinel. -/
theorem sweepPhase_cancelled (env : Env) (exec : Nat → DownloadResult)
    (k : Nat) (lock : Option Lock) (ext : String) (e : Option String)
    (acc : List Dict) :
    (sweepPhase env exec k lock ext e acc).res = .cancelled →
    ∃ j, k ≤ j ∧ j < (sweepPhase env exec k lock ext e acc).next ∧
      (exec j).error = some "Cancelled by user" := by
  intro h
  simp only [sweepPhase] at h ⊢
  cases hs : (sweepLoop env exec k ext
      (build_cookie_attempts (build_base_opts env true)) e).res with
  | locked m cb => simp [hs] at h
  | noSuccess e2 => simp [hs] at h
  | crashed msg => simp [hs] at h
  | cancelled =>
      simp only [hs]
      exact sweepLoop_cancelled env exec ext _ k e hs

/-- A cancelled pair contains a call that returned the sentinel. -/
theorem processFormat_cancelled_exists (env : Env) (exec : Nat → DownloadResult)
    (k : Nat) (lock : Option Lock) (ext : String) :
    (processFormat env exec k lock ext).res = .cancelled →
    ∃ j, k ≤ j ∧ j < (processFormat env exec k lock ext).next ∧
      (exec j).error = some "Cancelled by user" := by
  intro h
  cases hb : build_opts_for_format (build_base_opts env false) ext with
  | error e0 =>
      simp only [processFormat, hb] at h
      simp at h
  | ok o0 =>
      by_cases hsent0 : (exec k).error = some "Cancelled by user"
      · rw [processFormat_cancel_first env exec k lock ext o0 hb hsent0]
        exact ⟨k, Nat.le_refl k, Nat.lt_succ_self k, hsent0⟩
      · simp only [processFormat, hb, if_neg hsent0] at h ⊢
        by_cases hok0 : (exec k).ok = true
        · rw [if_pos hok0] at h
          simp at h
        · rw [if_neg hok0] at h
          rw [if_neg hok0]
          by_cases hperm0 : env.isPerm (exec k).error = true
          · rw [if_pos hperm0] at h; simp at h
          · rw [if_neg hperm0] at h
            rw [if_neg hperm0]
            by_cases hnet0 : env.isNet (exec k).error = true
            · rw [if_pos hnet0] at h; simp at h
            · rw [if_neg hnet0] at h
              rw [if_neg hnet0]
              cases lock with
              | none =>
                  obtain ⟨j, hj1, hj2, hj3⟩ :=
                    sweepPhase_cancelled env exec (k + 1) none ext (exec k).error
                      [o0] h
                  exact ⟨j, by omega, hj2, hj3⟩
              | some mcb =>
                  obtain ⟨m, cb⟩ := mcb
                  cases hbL : build_opts_for_format cb ext with
                  | error eL =>
                      simp only [hbL] at h
                      simp at h
                  | ok oL =>
                      simp only [hbL] at h ⊢
                      by_cases hsent1 : (exec (k + 1)).error = some "Cancelled by user"
                      · rw [if_pos hsent1]
                        exact ⟨k + 1, by omega, Nat.lt_succ_self (k + 1), hsent1⟩
                      · rw [if_neg hsent1] at h
                        rw [if_neg hsent1]
                        by_cases hok1 : (exec (k + 1)).ok = true
                        · rw [if_pos hok1] at h; simp at h
                        · rw [if_neg hok1] at h
                          rw [if_neg hok1]
                          by_cases hcls1 : (env.isPerm (exec (k + 1)).error ||
                              env.isNet (exec (k + 1)).error) = true
                          · rw [if_pos hcls1] at h; simp at h
                          · rw [if_neg hcls1] at h
                            rw [if_neg hcls1]
                            obtain ⟨j, hj1, hj2, hj3⟩ :=
                              sweepPhase_cancelled env exec (k + 2) (some (m, cb)) ext
                                (exec k).error [o0, oL] h
                            exact ⟨j, by omega, hj2, hj3⟩

/-!  Per-URL and batch-level aggregation lemmas. -/

/-- Invariant of the per-URL format loop: on completion the result list
extends the accumulator by one result per export format, and the
`url_failed` flag is set exactly when the flag was already set or some new
format terminally failed. -/
theorem formatsLoop_completed_inv (env : Env) (exec : Nat → DownloadResult) :
    ∀ (exports : List String) (k : Nat) (lock : Option Lock) (b : Bool)
      (acc : List FmtRes) (flag : Bool) (rs : List FmtRes),
    (formatsLoop env exec k lock exports b acc).res = .completed flag rs →
    ∃ tl, rs = acc.reverse ++ tl ∧ tl.length = exports.length ∧
      flag = (b || tl.any FmtRes.isFailed) := by
  intro exports
  induction exports with
  | nil =>
      intro k lock b acc flag rs h
      simp only [formatsLoop, UrlRes.completed.injEq] at h
      exact ⟨[], by simp [← h.2, ← h.1], by simp, by simp [← h.1]⟩
  | cons ext rest ih =>
      intro k lock b acc flag rs h
      simp only [formatsLoop] at h
      cases hf : (processFormat env exec k lock ext).res with
      | success =>
          rw [hf] at h
          simp only [] at h
          obtain ⟨tl, h1, h2, h3⟩ := ih _ _ b (.success :: acc) flag rs h
          refine ⟨.success :: tl, ?_, by simp [h2], ?_⟩
          · rw [h1]
            simp
          · rw [h3]
            simp [FmtRes.isFailed]
      | failed e =>
          rw [hf] at h
          simp only [] at h
          obtain ⟨tl, h1, h2, h3⟩ := ih _ _ true (.failed e :: acc) flag rs h
          refine ⟨.failed e :: tl, ?_, by simp [h2], ?_⟩
          · rw [h1]
            simp
          · rw [h3]
            simp [FmtRes.isFailed]
      | cancelled =>
          rw [hf] at h
          simp at h
      | crashed m =>
          rw [hf] at h
          simp at h

/-- A batch that runs to completion emits the summary and buckets every
URL exactly once. -/
theorem urlsLoop_completed_counts (env : Env) (exec : Nat → DownloadResult)
    (exports : List String) :
    ∀ (urls : List String) (k : Nat) (lock : Option Lock)
      (okAcc failAcc : List String) (invAcc : List (String × String)),
    (urlsLoop env exec k lock urls exports okAcc failAcc invAcc).status = .completed →
    (urlsLoop env exec k lock urls exports okAcc failAcc invAcc).summaryEmitted = true ∧
    (urlsLoop env exec k lock urls exports okAcc failAcc invAcc).ok_urls.length +
      (urlsLoop env exec k lock urls exports okAcc failAcc invAcc).fail_urls.length +
      (urlsLoop env exec k lock urls exports okAcc failAcc invAcc).invalid_urls.length =
      okAcc.length + failAcc.length + invAcc.length + urls.length := by
  intro urls
  induction urls with
  | nil =>
      intro k lock okAcc failAcc invAcc _
      simp [urlsLoop]
  | cons url rest ih =>
      intro k lock okAcc failAcc invAcc h
      simp only [urlsLoop] at h ⊢
      by_cases hc : (env.check url).1 = true
      · rw [if_neg (by simpa using hc)] at h ⊢
        cases hu : (formatsLoop env exec k lock exports false []).res with
        | completed url_failed frs =>
            rw [hu] at h
            simp only [] at h ⊢
            cases url_failed with
            | true =>
                simp only [eq_self_iff_true, if_true] at h ⊢
                obtain ⟨h1, h2⟩ := ih _ _ okAcc (failAcc ++ [url]) invAcc h
                refine ⟨h1, ?_⟩
                rw [h2]
                simp
                omega
            | false =>
                simp only [Bool.false_eq_true, if_false] at h ⊢
                obtain ⟨h1, h2⟩ := ih _ _ (okAcc ++ [url]) failAcc invAcc h
                refine ⟨h1, ?_⟩
                rw [h2]
                simp
                omega
        | cancelled =>
            rw [hu] at h
            simp at h
        | crashed m =>
            rw [hu] at h
            simp at h
      · rw [if_pos (by simpa using hc)] at h ⊢
        obtain ⟨h1, h2⟩ := ih _ _ okAcc failAcc (invAcc ++ [(url, (env.check url).2)]) h
        refine ⟨h1, ?_⟩
        rw [h2]
        simp
        omega

/-- A cancelled batch does not emit the summary and leaves at least one
URL unbucketed. -/
theorem urlsLoop_cancelled_counts (env : Env) (exec : Nat → DownloadResult)
    (exports : List String) :
    ∀ (urls : List String) (k : Nat) (lock : Option Lock)
      (okAcc failAcc : List String) (invAcc : List (String × String)),
    (urlsLoop env exec k lock urls exports okAcc failAcc invAcc).status = .cancelled →
    (urlsLoop env exec k lock urls exports okAcc failAcc invAcc).summaryEmitted = false ∧
    (urlsLoop env exec k lock urls exports okAcc failAcc invAcc).ok_urls.length +
      (urlsLoop env exec k lock urls exports okAcc failAcc invAcc).fail_urls.length +
      (urlsLoop env exec k lock urls exports okAcc failAcc invAcc).invalid_urls.length <
      okAcc.length + failAcc.length + invAcc.length + urls.length := by
  intro urls
  induction urls with
  | nil =>
      intro k lock okAcc failAcc invAcc h
      simp [urlsLoop] at h
  | cons url rest ih =>
      intro k lock okAcc failAcc invAcc h
      simp only [urlsLoop] at h ⊢
      by_cases hc : (env.check url).1 = true
      · rw [if_neg (by simpa using hc)] at h ⊢
        cases hu : (formatsLoop env exec k lock exports false []).res with
        | completed url_failed frs =>
            rw [hu] at h
            simp only [] at h ⊢
            cases url_failed with
            | true =>
                simp only [eq_self_iff_true, if_true] at h ⊢
                obtain ⟨h1, h2⟩ := ih _ _ okAcc (failAcc ++ [url]) invAcc h
                refine ⟨h1, ?_⟩
                simp only [List.length_append, List.length_singleton] at h2
                simp only [List.length_cons]
                omega
            | false =>
                simp only [Bool.false_eq_true, if_false] at h ⊢
                obtain ⟨h1, h2⟩ := ih _ _ (okAcc ++ [url]) failAcc invAcc h
                refine ⟨h1, ?_⟩
                simp only [List.length_append, List.length_singleton] at h2
                simp only [List.length_cons]
                omega
        | cancelled =>
            simp only [] at h ⊢
            refine ⟨trivial, ?_⟩
            simp only [List.length_cons]
            omega
        | crashed m =>
            rw [hu] at h
            simp at h
      · rw [if_pos (by simpa using hc)] at h ⊢
        obtain ⟨h1, h2⟩ := ih _ _ okAcc failAcc (invAcc ++ [(url, (env.check url).2)]) h
        refine ⟨h1, ?_⟩
        simp only [List.length_append, List.length_singleton] at h2
        simp only [List.length_cons]
        omega

/-- C4 (amended): user cancellation during any of the three escalation
states is never recorded as a format-level failure — the pair's outcome is
`cancelled` — and the entire batch loop terminates with at least one URL
left unprocessed; however, contrary to the original claim, the partial
end-of-batch summary is NOT emitted: the raised `KeyboardInterrupt`
reaches the top-level handler, which prints a farewell and returns before
the summary block. -/
theorem spec_c4 :
    (∀ (env : Env) (exec : Nat → DownloadResult) (urls exports : List String),
      (runBatch env exec urls exports).status = .cancelled →
        (runBatch env exec urls exports).summaryEmitted = false ∧
        (runBatch env exec urls exports).ok_urls.length +
          (runBatch env exec urls exports).fail_urls.length +
          (runBatch env exec urls exports).invalid_urls.length < urls.length) ∧
    (∀ (env : Env) (exec : Nat → DownloadResult) (urls exports : List String),
      (runBatch env exec urls exports).status = .completed →
        (runBatch env exec urls exports).summaryEmitted = true ∧
        (runBatch env exec urls exports).ok_urls.length +
          (runBatch env exec urls exports).fail_urls.length +
          (runBatch env exec urls exports).invalid_urls.length = urls.length) ∧
    (∀ (env : Env) (exec : Nat → DownloadResult) (k : Nat) (lock : Option Lock)
        (ext : String) (o0 : Dict),
      build_opts_for_format (build_base_opts env false) ext = .ok o0 →
      (exec k).error = some "Cancelled by user" →
      (processFormat env exec k lock ext).res = .cancelled) ∧
    (∀ (env : Env) (exec : Nat → DownloadResult) (k : Nat) (m : String)
        (cb : Dict) (ext : String) (o0 oL : Dict),
      build_opts_for_format (build_base_opts env false) ext = .ok o0 →
      build_opts_for_format cb ext = .ok oL →
      ¬ (exec k).error = some "Cancelled by user" →
      (exec k).ok = false →
      env.isPerm (exec k).error = false →
      env.isNet (exec k).error = false →
      (exec (k + 1)).error = some "Cancelled by user" →
      (processFormat env exec k (some (m, cb)) ext).res = .cancelled) ∧
    (∀ (env : Env) (exec : Nat → DownloadResult) (k : Nat) (ext m : String)
        (cb : Dict) (rest : List (String × Dict)) (le : Option String) (o : Dict),
      build_opts_for_format cb ext = .ok o →
      (exec k).error = some "Cancelled by user" →
      (sweepLoop env exec k ext ((m, cb) :: rest) le).res = .cancelled) := by
  refine ⟨?_, ?_, ?_, ?_, ?_⟩
  · intro env exec urls exports h
    simp only [runBatch] at h ⊢
    have := urlsLoop_cancelled_counts env exec exports urls 0 none [] [] [] h
    simpa using this
  · intro env exec urls exports h
    simp only [runBatch] at h ⊢
    have := urlsLoop_completed_counts env exec exports urls 0 none [] [] [] h
    simpa using this
  · intro env exec k lock ext o0 hb hsent
    rw [processFormat_cancel_first env exec k lock ext o0 hb hsent]
  · intro env exec k m cb ext o0 oL hb0 hbL hns0 hok0 hperm0 hnet0 hsent1
    rw [processFormat_locked_unknown env exec k m cb ext o0 oL hb0 hbL hns0 hok0
      hperm0 hnet0, if_pos hsent1]
  · intro env exec k ext m cb rest le o ho hsent
    rw [sweepLoop_cancel_first env exec k ext m cb rest le o ho hsent]

def execCancel : Nat → DownloadResult :=
  fun _ => { ok := false, error := some "Cancelled by user" }

theorem spec_c4_counterexample :
    (runBatch envA execCancel ["u1", "u2"] ["mp3"]).status = .cancelled ∧
    (runBatch envA execCancel ["u1", "u2"] ["mp3"]).summaryEmitted = false ∧
    (runBatch envA execCancel ["u1", "u2"] ["mp3"]).ok_urls = [] ∧
    (runBatch envA execCancel ["u1", "u2"] ["mp3"]).fail_urls = [] ∧
    (runBatch envA execCancel ["u1", "u2"] ["mp3"]).invalid_urls = [] := by
  refine ⟨?_, ?_, ?_, ?_, ?_⟩ <;> rfl

theorem spec_c4_witness :
    (processFormat envA execCancel 0 none "mp3").res = .cancelled :=
  spec_c4.2.2.1 envA execCancel 0 none "mp3"
    (buildOk (build_base_opts envA false) "mp3")
    (by rw [build_opts_mp3]; rw [buildOk, build_opts_mp3]; rfl) rfl

/-- C6: for every URL passing the fast pre-check, the per-URL format loop
completes with `url_failed` set exactly when at least one requested format
terminally failed (one result per requested format); a completed batch
buckets every URL exactly once, and a single-URL batch lands the URL in
the failed bucket when any format failed and in the ok bucket only when
all formats succeeded. -/
theorem spec_c6 :
    (∀ (env : Env) (exec : Nat → DownloadResult) (k : Nat) (lock : Option Lock)
        (exports : List String) (flag : Bool) (rs : List FmtRes),
      (formatsLoop env exec k lock exports false []).res = .completed flag rs →
      rs.length = exports.length ∧ flag = rs.any FmtRes.isFailed) ∧
    (∀ (env : Env) (exec : Nat → DownloadResult) (urls exports : List String),
      (runBatch env exec urls exports).status = .completed →
      (runBatch env exec urls exports).ok_urls.length +
        (runBatch env exec urls exports).fail_urls.length +
        (runBatch env exec urls exports).invalid_urls.length = urls.length) ∧
    (∀ (env : Env) (exec : Nat → DownloadResult) (url : String)
        (exports : List String) (flag : Bool) (rs : List FmtRes),
      (env.check url).1 = true →
      (formatsLoop env exec 0 none exports false []).res = .completed flag rs →
      (runBatch env exec [url] exports).fail_urls =
        (if rs.any FmtRes.isFailed then [url] else []) ∧
      (runBatch env exec [url] exports).ok_urls =
        (if rs.any FmtRes.isFailed then [] else [url])) := by
  refine ⟨?_, ?_, ?_⟩
  · intro env exec k lock exports flag rs h
    obtain ⟨tl, h1, h2, h3⟩ := formatsLoop_completed_inv env exec exports k lock
      false [] flag rs h
    simp only [List.reverse_nil, List.nil_append] at h1
    subst h1
    exact ⟨h2, by simpa using h3⟩
  · intro env exec urls exports h
    simp only [runBatch] at h ⊢
    have := urlsLoop_completed_counts env exec exports urls 0 none [] [] [] h
    simpa using this.2
  · intro env exec url exports flag rs hck hfl
    have hflag : flag = rs.any FmtRes.isFailed := by
      obtain ⟨tl, h1, _, h3⟩ := formatsLoop_completed_inv env exec exports 0 none
        false [] flag rs hfl
      simp only [List.reverse_nil, List.nil_append] at h1
      subst h1
      simpa using h3
    subst hflag
    simp only [runBatch, urlsLoop]
    rw [if_neg (by simpa using hck)]
    rw [hfl]
    simp only []
    cases hany : rs.any FmtRes.isFailed with
    | true =>
        simp only [eq_self_iff_true, if_true, urlsLoop]
        exact ⟨List.nil_append [url], trivial⟩
    | false =>
        simp only [Bool.false_eq_true, if_false, urlsLoop]
        exact ⟨trivial, List.nil_append [url]⟩

def execSeq2 : Nat → DownloadResult :=
  fun n => if n = 0 then { ok := true, error := none } else { ok := false, error := some "gone" }

theorem spec_c6_witness :
    (runBatch envA execSeq2 ["u"] ["mp3", "mp3"]).fail_urls = ["u"] ∧
    (runBatch envA execSeq2 ["u"] ["mp3", "mp3"]).ok_urls = [] := by
  have h := spec_c6.2.2 envA execSeq2 "u" ["mp3", "mp3"] true
    [.success, .failed (some "gone")] rfl (by rfl)
  simpa using h

/-- C10: cancellation crosses the executor boundary only as the sentinel
error string.  `run_download` converts a `KeyboardInterrupt` into a normal
failure result whose error is exactly `"Cancelled by user"`; the
orchestrator aborts exactly when a result's error equals that string (a
cancelled pair always exhibits such a call); consequently an engine
failure whose captured error text equals the sentinel aborts the whole
batch as though the user had cancelled. -/
theorem spec_c10 :
    (∀ (fs : String → Bool) (le : Option String),
      run_download fs .interrupt le =
        { ok := false, error := some "Cancelled by user" }) ∧
    (∀ (fs : String → Bool) (msg : String),
      run_download fs (.downloadError msg) (some "Cancelled by user") =
        { ok := false, error := some "Cancelled by user" }) ∧
    (∀ (env : Env) (exec : Nat → DownloadResult) (k : Nat) (lock : Option Lock)
        (ext : String) (o0 : Dict),
      build_opts_for_format (build_base_opts env false) ext = .ok o0 →
      (exec k).error = some "Cancelled by user" →
      processFormat env exec k lock ext =
        { res := .cancelled, lock := lock, calls := [o0], next := k + 1 }) ∧
    (∀ (env : Env) (exec : Nat → DownloadResult) (k : Nat) (lock : Option Lock)
        (ext : String),
      (processFormat env exec k lock ext).res = .cancelled →
      ∃ j, k ≤ j ∧ j < (processFormat env exec k lock ext).next ∧
        (exec j).error = some "Cancelled by user") ∧
    (∀ (env : Env) (exec : Nat → DownloadResult) (url : String)
        (rest : List String) (ext : String) (rexts : List String) (o0 : Dict),
      (env.check url).1 = true →
      build_opts_for_format (build_base_opts env false) ext = .ok o0 →
      (exec 0).error = some "Cancelled by user" →
      (runBatch env exec (url :: rest) (ext :: rexts)).status = .cancelled ∧
      (runBatch env exec (url :: rest) (ext :: rexts)).summaryEmitted = false) := by
  refine ⟨?_, ?_, ?_, ?_, ?_⟩
  · intro fs le
    rfl
  · intro fs msg
    simp [run_download, pyOr]
  · intro env exec k lock ext o0 hb hsent
    exact processFormat_cancel_first env exec k lock ext o0 hb hsent
  · intro env exec k lock ext h
    exact processFormat_cancelled_exists env exec k lock ext h
  · intro env exec url rest ext rexts o0 hck hb hsent
    have hpf := processFormat_cancel_first env exec 0 none ext o0 hb hsent
    simp only [runBatch, urlsLoop]
    rw [if_neg (by simpa using hck)]
    simp only [formatsLoop, hpf]
    exact ⟨trivial, trivial⟩

theorem spec_c10_witness :
    (runBatch envA execCancel ["w"] ["mp3"]).status = .cancelled ∧
    (runBatch envA execCancel ["w"] ["mp3"]).summaryEmitted = false :=
  spec_c10.2.2.2.2 envA execCancel "w" [] "mp3" []
    (buildOk (build_base_opts envA false) "mp3") rfl
    (by rw [build_opts_mp3]; rw [buildOk, build_opts_mp3]; rfl) rfl
